import Mathlib

/-!
Shallow embedding of `internal/gonut/cmd/push.go` (gonut command dispatch layer)
and proofs of its specified properties.

Conventions of the embedding:
* Go `time.Duration` is an `Int` counting nanoseconds (`time.Second = 10^9`).
* A Go `(value, error)` pair is `Except String value` when the value is
  meaningless on error, and `value × Option String` when the source returns a
  meaningful value alongside a nil error (as `mapOutputSetting` does).
* Printing to standard output is modelled by returning the list of printed
  strings.
* External collaborators (`cf.PushApp`, `assets.Provider.*`,
  `text.RandomStringWithPrefix`, `report.ToJSON`, `json.Indent`, ...) are not
  part of the file set; they are modelled from the spec as explicit parameters
  or data, as noted on each definition.
-/

set_option autoImplicit false

namespace Gonut

/-- Go variable `GonutAppPrefix = "gonut"` (push.go line 42), the prefix for gonut
applications.  The trailing token of the Go name is shortened to `Pfx` here. -/
def GonutAppPfx : String := "gonut"

/-- Modelled from the spec: `cf.AppCleanupSetting` lives in the external `cf`
package; the spec gives its vocabulary {Always, Never, OnSuccess}.  The `-1`
the source returns alongside an error is not represented: it is never read. -/
inductive AppCleanupSetting where
  | Always
  | Never
  | OnSuccess
deriving DecidableEq, Repr

/-- Modelled from the spec: `cf.OutputType` lives in the external `cf` package;
the spec gives the vocabulary {JSON, YAML, None}. `NoneSentinel` stands for the
`-1` "none" sentinel that `mapOutputSetting` returns for unknown values and
that falls into the `default` branch of `summaryPrintout`. -/
inductive OutputType where
  | JSON
  | YAML
  | NoneSentinel
deriving DecidableEq, Repr

/-- Go function `mapDeleteSetting` (push.go lines 174-188): a switch on the raw string,
unknown values are a hard error carrying the source's message. -/
def mapDeleteSetting (deleteSetting : String) : Except String AppCleanupSetting :=
  if deleteSetting = "always" then .ok .Always
  else if deleteSetting = "never" then .ok .Never
  else if deleteSetting = "on-success" then .ok .OnSuccess
  else .error ("unsupported delete setting: " ++ deleteSetting)

/-- Model of `strings.ToLower` as used by `mapOutputSetting`: Go lowercases the string
rune by rune, modelled here by mapping over the character list; the values
compared against are ASCII, so the ASCII folding of `Char.toLower` is the
relevant fragment of Go's Unicode folding. -/
def goToLower (s : String) : String :=
  String.mk (s.data.map Char.toLower)

/-- Go function `mapOutputSetting` (push.go lines 190-201): a switch on the lowercased
string; the error return is commented out in the source, so unknown values
yield the `-1` sentinel together with a nil error. -/
def mapOutputSetting (outputSetting : String) : OutputType × Option String :=
  if goToLower outputSetting = "json" then (.JSON, none)
  else if goToLower outputSetting = "yaml" then (.YAML, none)
  else (.NoneSentinel, none)

/-- The second `if` block of `humanReadableDuration` (push.go lines 289-301):
from a whole number of seconds, the `(hours, minutes, seconds)` triple after
the two conditional div/mod steps.  The mutated locals are inlined:
`minutes = seconds / 60`, the remaining seconds are `seconds % 60`, and when
`minutes ≥ 60` the hours are `minutes / 60` with `minutes % 60` left over. -/
def hmsComponents (seconds : Nat) : Nat × Nat × Nat :=
  if seconds ≥ 60 then
    if seconds / 60 ≥ 60 then
      (seconds / 60 / 60, seconds / 60 % 60, seconds % 60)
    else
      (0, seconds / 60, seconds % 60)
  else (0, 0, seconds)

/-- The `parts` slice of `humanReadableDuration` (push.go lines 303-314): one
`fmt.Sprintf` entry per strictly positive component, in h/min/sec order. -/
def durationParts (hours minutes seconds : Nat) : List String :=
  (if hours > 0 then [toString hours ++ " h"] else []) ++
  (if minutes > 0 then [toString minutes ++ " min"] else []) ++
  (if seconds > 0 then [toString seconds ++ " sec"] else [])

/-- Fuel-based base-2 logarithm: `log2Aux fuel n` equals `Nat.log2 n` whenever
`n ≤ fuel` (proved in `natLog2_eq`).  Structural recursion on the fuel lets the
kernel evaluate it, which `Nat.log2`'s well-founded recursion does not. -/
def log2Aux : Nat → Nat → Nat
  | 0, _ => 0
  | fuel + 1, n => if n ≥ 2 then log2Aux fuel (n / 2) + 1 else 0

/-- Kernel-evaluable `Nat.log2`. -/
def natLog2 (n : Nat) : Nat := log2Aux n n

/-- Round `num / den` to the nearest integer, ties to even. -/
def rhe (num den : Nat) : Nat :=
  if 2 * (num % den) < den then num / den
  else if den < 2 * (num % den) then num / den + 1
  else if (num / den) % 2 = 0 then num / den else num / den + 1

/-- Floor of the base-2 logarithm of the positive rational `a / b`.  For
`a ≥ b` it is `log2` of the integer quotient; for `a < b` it is `-j` when
`a / b` is exactly `2^(-j)` (with `j = log2 (b / a)`) and `-(j+1)`
otherwise, since then `2^(-(j+1)) < a / b < 2^(-j)`. -/
def floorLog2Rat (a b : Nat) : Int :=
  if b ≤ a then (natLog2 (a / b) : Int)
  else
    if b = a * 2 ^ natLog2 (b / a) then -(natLog2 (b / a) : Int)
    else -(natLog2 (b / a) : Int) - 1

/-- IEEE-754 binary64 rounding (round to nearest, ties to even, 53-bit
significand) of the nonnegative rational `a / b`, returned as a dyadic
fraction `(numerator, denominator)`.  With `k = floor (log2 (a/b))` the
scaled value `(a/b) * 2^(52-k)` lies in `[2^52, 2^53)`; rounding it half-even
to the integer `m` gives the double `m * 2^(k-52)` (an `m` of `2^53` is the
correctly rounded power of two).  The exponent is unbounded here: the doubles
arising from `time.Duration` (magnitudes in `[10^-9, 2^34]`) are far from
binary64's overflow and subnormal ranges, so those are not modelled. -/
def roundF64Pair (a b : Nat) : Nat × Nat :=
  if a = 0 then (0, 1)
  else
    if 52 ≤ floorLog2Rat a b then
      (rhe a (b * 2 ^ (floorLog2Rat a b - 52).toNat) * 2 ^ (floorLog2Rat a b - 52).toNat, 1)
    else
      (rhe (a * 2 ^ (52 - floorLog2Rat a b).toNat) b, 2 ^ (52 - floorLog2Rat a b).toNat)

/-- Model of `duration.Seconds()` (Go stdlib `time`): `float64(sec) +
float64(nsec)/1e9`, as an exact dyadic pair.  `float64(sec)`, `float64(nsec)`
and `1e9` are exactly representable for every `time.Duration` (all below
`2^53`), so the only two roundings are the correctly rounded division —
`roundF64Pair nsec 1e9` — and the correctly rounded addition of `sec` to that
dyadic `x`, i.e. `roundF64Pair (sec * xd + xn) xd`. -/
def float64SecondsPair (sec nsec : Nat) : Nat × Nat :=
  roundF64Pair
    (sec * (roundF64Pair nsec 1000000000).2 + (roundF64Pair nsec 1000000000).1)
    (roundF64Pair nsec 1000000000).2

/-- Model of `int(duration.Seconds())` (push.go line 289): `sec = d / 1e9`,
`nsec = d % 1e9`, the float64 sum per `float64SecondsPair`, then the `int`
conversion truncates toward zero — division of the nonnegative dyadic pair.
Only durations of at least one second reach this code (the sub-second branch
returns first), so the model works in `Nat` via `toNat`. -/
def goDurationSeconds (d : Int) : Nat :=
  (float64SecondsPair (d.toNat / 1000000000) (d.toNat % 1000000000)).1 /
  (float64SecondsPair (d.toNat / 1000000000) (d.toNat % 1000000000)).2

/-- Model of `strings.Join(parts, " ")` (push.go line 316). -/
def joinParts : List String → String
  | [] => ""
  | [p] => p
  | p :: q :: rest => p ++ " " ++ joinParts (q :: rest)

/-- Go function `humanReadableDuration` (push.go lines 284-317). The duration
is an `Int` of nanoseconds; `time.Second` is `10^9`.  The sub-second test is
an exact integer comparison; on the other branch `seconds :=
int(duration.Seconds())` goes through float64 and is modelled faithfully by
`goDurationSeconds`, including the round-to-nearest step that can produce one
second more than the duration's whole number of seconds (first at `2^24` s
with a nanosecond part of `999999999`). -/
def humanReadableDuration (duration : Int) : String :=
  if duration < 1000000000 then "less than a second"
  else
    let seconds := goDurationSeconds duration
    let c := hmsComponents seconds
    joinParts (durationParts c.1 c.2.1 c.2.2)

/-- Returns `true` exactly on the error side of a Go-style fallible result. -/
def isErr {α : Type} : Except String α → Bool
  | .error _ => true
  | .ok _ => false

/-- Modelled from the spec: `files.Directory` (pina-golada) is the external
file-bundle type; the dispatch code never inspects it, so nothing of it is
represented. -/
abbrev Directory : Type := Unit

/-- Modelled from the spec: `cf.PushReport` is the external value object
summarizing one deployment run.  Its read-only accessors become fields
(durations in nanoseconds); `ToJSON`/`ToYAML` are external serializations that
may fail, so their results are carried as data. -/
structure PushReport where
  elapsedTime : Int
  initTime : Int
  creatingTime : Int
  uploadingTime : Int
  stagingTime : Int
  startingTime : Int
  hasTimeDetails : Bool
  stack : String
  buildpack : String
  toJSON : Except String String
  toYAML : Except String String

/-- Go function `summaryPrintout` (push.go lines 203-255).  `jsonIndent` stands for the
standard-library `json.Indent` re-indentation, an external function.  The
result is the list of strings printed to standard output (each `bunt` call is
one entry, `Println` newlines included; the colour/style markup of the format
strings is kept as literal text), or the first serialization error.  The Go
`switch` with a `"short", "oneline"` case, a `"full"` case and no default is
an if-chain; inside `"full"`, the inner switch sends the `-1` sentinel into
the `default` human-readable branch. -/
def summaryPrintout (jsonIndent : String → Except String String)
    (appCaption : String) (report : PushReport)
    (summarySetting : String) (outputType : OutputType) :
    Except String (List String) :=
  if summarySetting = "short" ∨ summarySetting = "oneline" then
    .ok ["Successfully pushed *" ++ appCaption ++ "* sample app in CadetBlue\x7b"
          ++ humanReadableDuration report.elapsedTime ++ "\x7d.\n"]
  else if summarySetting = "full" then
    match outputType with
    | .JSON =>
      match report.toJSON with
      | .error e => .error e
      | .ok output =>
        match jsonIndent output with
        | .error e => .error e
        | .ok buffer => .ok [buffer ++ "\n"]
    | .YAML =>
      match report.toYAML with
      | .error e => .error e
      | .ok output => .ok [output ++ "\n"]
    | .NoneSentinel =>
      .ok (["Successfully pushed *" ++ appCaption ++ "* sample app in CadetBlue\x7b"
              ++ humanReadableDuration report.elapsedTime ++ "\x7d:\n",
            "     DimGray\x7b_stack:_\x7d DarkSeaGreen\x7b" ++ report.stack ++ "\x7d\n",
            " DimGray\x7b_buildpack:_\x7d DarkSeaGreen\x7b" ++ report.buildpack ++ "\x7d\n"]
        ++ (if report.hasTimeDetails then
              ["   DimGray\x7b_ramp-up:_\x7d SteelBlue\x7b"
                 ++ humanReadableDuration report.initTime ++ "\x7d\n",
               "  DimGray\x7b_creating:_\x7d SteelBlue\x7b"
                 ++ humanReadableDuration report.creatingTime ++ "\x7d\n",
               " DimGray\x7b_uploading:_\x7d SteelBlue\x7b"
                 ++ humanReadableDuration report.uploadingTime ++ "\x7d\n",
               "   DimGray\x7b_staging:_\x7d SteelBlue\x7b"
                 ++ humanReadableDuration report.stagingTime ++ "\x7d\n",
               "  DimGray\x7b_starting:_\x7d SteelBlue\x7b"
                 ++ humanReadableDuration report.startingTime ++ "\x7d\n"]
            else [])
        ++ ["\n"])
  else
    .ok []

/-- Go struct `sampleApp` (push.go lines 44-50).  The Go field `appNamePrefix` is
shortened to `appNamePfx`; `assetFunc` returns the bundle or an error. -/
structure sampleApp where
  caption : String
  command : String
  aliases : List String
  appNamePfx : String
  assetFunc : Unit → Except String Directory

/-- Modelled from the spec: the external `assets.Provider` collaborator, one
asset-producing function per sample app (`GoSampleApp`, `PythonSampleApp`,
...).  Their behaviour is outside the file set, so the table of sample apps is
parameterized over the provider. -/
structure AssetProvider where
  GoSampleApp : Unit → Except String Directory
  PythonSampleApp : Unit → Except String Directory
  PHPSampleApp : Unit → Except String Directory
  StaticfileSampleApp : Unit → Except String Directory
  SwiftSampleApp : Unit → Except String Directory
  NodeJSSampleApp : Unit → Except String Directory
  RubySampleApp : Unit → Except String Directory

/-- Go variable `sampleApps` (push.go lines 58-113), in source order.  Each
`fmt.Sprintf("%s-...-app-", GonutAppPrefix)` becomes the corresponding string
append; the Ruby entry omits `aliases` in the source, so it gets Go's zero
value, the empty list. -/
def sampleApps (P : AssetProvider) : List sampleApp :=
  [ { caption := "Golang", command := "golang", aliases := ["go"],
      appNamePfx := GonutAppPfx ++ "-golang-app-", assetFunc := P.GoSampleApp },
    { caption := "Python", command := "python", aliases := [],
      appNamePfx := GonutAppPfx ++ "-python-app-", assetFunc := P.PythonSampleApp },
    { caption := "PHP", command := "php", aliases := [],
      appNamePfx := GonutAppPfx ++ "-php-app-", assetFunc := P.PHPSampleApp },
    { caption := "Staticfile", command := "staticfile", aliases := ["static"],
      appNamePfx := GonutAppPfx ++ "-staticfile-app-", assetFunc := P.StaticfileSampleApp },
    { caption := "Swift", command := "swift", aliases := [],
      appNamePfx := GonutAppPfx ++ "-swift-app-", assetFunc := P.SwiftSampleApp },
    { caption := "NodeJS", command := "nodejs", aliases := ["node"],
      appNamePfx := GonutAppPfx ++ "-nodejs-app-", assetFunc := P.NodeJSSampleApp },
    { caption := "Ruby", command := "ruby", aliases := [],
      appNamePfx := GonutAppPfx ++ "-ruby-sinatra-app-", assetFunc := P.RubySampleApp } ]

/-- Modelled from the spec: `text.RandomStringWithPrefix(prefix, 32)`
(gonvenience, external) produces the given prefix followed by a random string
of the requested length; the randomness is abstracted into an explicit
`suffix` argument supplied by the environment. -/
def randomStringWithPfx (pfx : String) (_n : Nat) (suffix : String) : String :=
  pfx ++ suffix

/-- The process-scoped flag values (push.go lines 52-56) together with the
external collaborators `runSampleAppPush` calls: the abstracted randomness for
`text.RandomStringWithPrefix`, the external `cf.PushApp` routine, and the
external `json.Indent`. -/
structure PushEnv where
  deleteSetting : String
  summarySetting : String
  outputSetting : String
  randomSuffix : String
  pushApp : String → String → Directory → AppCleanupSetting → Except String PushReport
  jsonIndent : String → Except String String

/-- The `appName` computed at push.go line 269. -/
def generatedAppName (env : PushEnv) (app : sampleApp) : String :=
  randomStringWithPfx app.appNamePfx 32 env.randomSuffix

/-- One step of `runSampleAppPush`, used to record the order in which the
body's statements execute. -/
inductive PushStep where
  | mapDelete
  | mapOutput
  | genName (appName : String)
  | getAsset
  | doPush
  | render
deriving DecidableEq, Repr

/-- Go function `runSampleAppPush` (push.go lines 257-282).  Each `if err != nil { return
err }` becomes a match that stops the function; alongside the Go return value
the embedding records the trace of steps that executed (name generation
cannot fail, so `genName` is grouped with the `getAsset` attempt it precedes
only by position in the trace). -/
def runSampleAppPush (env : PushEnv) (app : sampleApp) :
    Except String (List String) × List PushStep :=
  match mapDeleteSetting env.deleteSetting with
  | .error e => (.error e, [.mapDelete])
  | .ok cleanupSetting =>
    match mapOutputSetting env.outputSetting with
    | (_, some e) => (.error e, [.mapDelete, .mapOutput])
    | (outputType, none) =>
      let appName := generatedAppName env app
      match app.assetFunc () with
      | .error e => (.error e, [.mapDelete, .mapOutput, .genName appName, .getAsset])
      | .ok directory =>
        match env.pushApp app.caption appName directory cleanupSetting with
        | .error e =>
          (.error e, [.mapDelete, .mapOutput, .genName appName, .getAsset, .doPush])
        | .ok report =>
          (summaryPrintout env.jsonIndent app.caption report env.summarySetting outputType,
           [.mapDelete, .mapOutput, .genName appName, .getAsset, .doPush, .render])

/-- The `Run` closure of the `push all` command (push.go lines 143-149): push
each sample app in list order, and on the first error stop the whole run
(`ExitGonut`).  The result pairs the terminating error (if any) with the
`command` names of the apps that were attempted, in order. -/
def pushAllCmd (env : PushEnv) : List sampleApp → Option String × List String
  | [] => (none, [])
  | app :: rest =>
    match (runSampleAppPush env app).1 with
    | .error e => (some e, [app.command])
    | .ok _ =>
      let r := pushAllCmd env rest
      (r.1, app.command :: r.2)

/-! Concrete fixtures, used to instantiate the universally quantified
theorems below on closed inputs. -/

/-- A concrete report for instantiations: 90 s elapsed, healthy
serializations. -/
def report0 : PushReport :=
  { elapsedTime := 90 * 1000000000
    initTime := 1000000000
    creatingTime := 2 * 1000000000
    uploadingTime := 3 * 1000000000
    stagingTime := 4 * 1000000000
    startingTime := 5 * 1000000000
    hasTimeDetails := true
    stack := "cflinuxfs3"
    buildpack := "go_buildpack"
    toJSON := .ok "null"
    toYAML := .ok "report: ok" }

/-- A concrete asset provider for instantiations. -/
def provider0 : AssetProvider :=
  { GoSampleApp := fun _ => .ok ()
    PythonSampleApp := fun _ => .ok ()
    PHPSampleApp := fun _ => .ok ()
    StaticfileSampleApp := fun _ => .ok ()
    SwiftSampleApp := fun _ => .ok ()
    NodeJSSampleApp := fun _ => .ok ()
    RubySampleApp := fun _ => .ok () }

/-- A concrete environment whose delete setting is unsupported. -/
def envBadDelete : PushEnv :=
  { deleteSetting := "bogus"
    summarySetting := "short"
    outputSetting := ""
    randomSuffix := "0123456789abcdefghijklmnopqrstuv"
    pushApp := fun _ _ _ _ => .ok report0
    jsonIndent := fun s => .ok s
  }

/-- A concrete environment on which every step succeeds. -/
def envOk : PushEnv :=
  { deleteSetting := "always"
    summarySetting := "short"
    outputSetting := ""
    randomSuffix := "0123456789abcdefghijklmnopqrstuv"
    pushApp := fun _ _ _ _ => .ok report0
    jsonIndent := fun s => .ok s
  }

/-- A concrete sample app whose asset function succeeds. -/
def appOk : sampleApp :=
  { caption := "Golang", command := "golang", aliases := ["go"],
    appNamePfx := "gonut-golang-app-", assetFunc := fun _ => .ok () }

/-- The first entry of `sampleApps provider0`, spelled out. -/
def golangApp0 : sampleApp :=
  { caption := "Golang", command := "golang", aliases := ["go"],
    appNamePfx := GonutAppPfx ++ "-golang-app-",
    assetFunc := provider0.GoSampleApp }

/-- A concrete sample app whose asset function fails. -/
def appBadAsset : sampleApp :=
  { caption := "Swift", command := "swift", aliases := [],
    appNamePfx := "gonut-swift-app-", assetFunc := fun _ => .error "no asset" }

/-! Helper lemmas. -/

theorem str_append_ne_empty (a b : String) (hb : 0 < b.length) : a ++ b ≠ "" := by
  intro h
  have h2 := congrArg String.length h
  rw [String.length_append] at h2
  have h4 : ("" : String).length = 0 := rfl
  omega

theorem mem_ite_singleton {c : Prop} [Decidable c] {x p : String}
    (hp : p ∈ (if c then [x] else [])) : c ∧ p = x := by
  by_cases h : c
  · rw [if_pos h] at hp
    exact ⟨h, List.mem_singleton.mp hp⟩
  · rw [if_neg h] at hp
    exact absurd hp (List.not_mem_nil p)

theorem durationParts_mem (h m s : Nat) (p : String) (hp : p ∈ durationParts h m s) :
    ∃ k : Nat, 0 < k ∧
      (p = toString k ++ " h" ∨ p = toString k ++ " min" ∨ p = toString k ++ " sec") := by
  unfold durationParts at hp
  rcases List.mem_append.mp hp with hp12 | hp3
  · rcases List.mem_append.mp hp12 with hp1 | hp2
    · obtain ⟨hc, rfl⟩ := mem_ite_singleton hp1
      exact ⟨h, hc, Or.inl rfl⟩
    · obtain ⟨hc, rfl⟩ := mem_ite_singleton hp2
      exact ⟨m, hc, Or.inr (Or.inl rfl)⟩
  · obtain ⟨hc, rfl⟩ := mem_ite_singleton hp3
    exact ⟨s, hc, Or.inr (Or.inr rfl)⟩

theorem joinParts_cons_ne_empty (p : String) (ps : List String) (hp : p ≠ "") :
    joinParts (p :: ps) ≠ "" := by
  cases ps with
  | nil => simpa [joinParts] using hp
  | cons q rest =>
    show (p ++ " " ++ joinParts (q :: rest)) ≠ ""
    intro h
    have h2 := congrArg String.length h
    rw [String.length_append, String.length_append] at h2
    have h3 : (" " : String).length = 1 := rfl
    have h4 : ("" : String).length = 0 := rfl
    omega

theorem log2Aux_eq (fuel : Nat) :
    ∀ n : Nat, n ≤ fuel → log2Aux fuel n = Nat.log2 n := by
  induction fuel with
  | zero =>
    intro n h
    have hn : n = 0 := by omega
    subst hn
    rw [Nat.log2]
    rfl
  | succ f ih =>
    intro n h
    rw [Nat.log2]
    by_cases h2 : 2 ≤ n
    · have hdiv : n / 2 ≤ f := by omega
      simp only [log2Aux, if_pos h2, ih (n / 2) hdiv]
    · simp only [log2Aux, if_neg h2]

theorem natLog2_eq (n : Nat) : natLog2 n = Nat.log2 n :=
  log2Aux_eq n n (Nat.le_refl n)

theorem rhe_ge_div (num den : Nat) : num / den ≤ rhe num den := by
  unfold rhe
  split_ifs <;> omega

theorem roundF64Pair_den_pos (a b : Nat) : 0 < (roundF64Pair a b).2 := by
  unfold roundF64Pair
  split_ifs <;> simp [Nat.pos_pow_of_pos]

theorem roundF64Pair_ge_one (a b : Nat) (hb : 0 < b) (hab : b ≤ a) :
    (roundF64Pair a b).2 ≤ (roundF64Pair a b).1 := by
  have ha : ¬ a = 0 := by omega
  have hq : 1 ≤ a / b := (Nat.one_le_div_iff hb).mpr hab
  have hlog : 2 ^ natLog2 (a / b) ≤ a / b := by
    rw [natLog2_eq]
    exact Nat.log2_self_le (by omega)
  have hk : floorLog2Rat a b = (natLog2 (a / b) : Int) := by
    unfold floorLog2Rat
    rw [if_pos hab]
  unfold roundF64Pair
  rw [if_neg ha, hk]
  by_cases h52 : 52 ≤ (natLog2 (a / b) : Int)
  · rw [if_pos h52]
    dsimp only
    have he : ((natLog2 (a / b) : Int) - 52).toNat ≤ natLog2 (a / b) := by omega
    have hmul : b * 2 ^ ((natLog2 (a / b) : Int) - 52).toNat ≤ a := by
      calc b * 2 ^ ((natLog2 (a / b) : Int) - 52).toNat
          ≤ b * 2 ^ natLog2 (a / b) :=
            Nat.mul_le_mul_left b (Nat.pow_le_pow_right (by omega) he)
        _ = 2 ^ natLog2 (a / b) * b := Nat.mul_comm _ _
        _ ≤ a / b * b := Nat.mul_le_mul_right b hlog
        _ ≤ a := Nat.div_mul_le_self a b
    have hden : 0 < b * 2 ^ ((natLog2 (a / b) : Int) - 52).toNat :=
      Nat.mul_pos hb (Nat.pos_pow_of_pos _ (by omega))
    have h1 : 1 ≤ rhe a (b * 2 ^ ((natLog2 (a / b) : Int) - 52).toNat) :=
      Nat.le_trans ((Nat.one_le_div_iff hden).mpr hmul)
        (rhe_ge_div a _)
    calc 1 ≤ rhe a (b * 2 ^ ((natLog2 (a / b) : Int) - 52).toNat) := h1
      _ ≤ rhe a (b * 2 ^ ((natLog2 (a / b) : Int) - 52).toNat) *
            2 ^ ((natLog2 (a / b) : Int) - 52).toNat :=
        Nat.le_mul_of_pos_right _ (Nat.pos_pow_of_pos _ (by omega))
  · rw [if_neg h52]
    dsimp only
    have hmul : 2 ^ (52 - (natLog2 (a / b) : Int)).toNat * b ≤
        a * 2 ^ (52 - (natLog2 (a / b) : Int)).toNat := by
      calc 2 ^ (52 - (natLog2 (a / b) : Int)).toNat * b
          = b * 2 ^ (52 - (natLog2 (a / b) : Int)).toNat := Nat.mul_comm _ _
        _ ≤ a * 2 ^ (52 - (natLog2 (a / b) : Int)).toNat :=
          Nat.mul_le_mul_right _ hab
    exact Nat.le_trans ((Nat.le_div_iff_mul_le hb).mpr hmul)
      (rhe_ge_div _ b)

theorem goDurationSeconds_pos (d : Int) (hd : 1000000000 ≤ d) :
    1 ≤ goDurationSeconds d := by
  have hn : 1000000000 ≤ d.toNat := by omega
  have hsec : 1 ≤ d.toNat / 1000000000 := by omega
  have hx := roundF64Pair_den_pos (d.toNat % 1000000000) 1000000000
  have hab : (roundF64Pair (d.toNat % 1000000000) 1000000000).2 ≤
      d.toNat / 1000000000 * (roundF64Pair (d.toNat % 1000000000) 1000000000).2 +
        (roundF64Pair (d.toNat % 1000000000) 1000000000).1 := by
    have h1 : 1 * (roundF64Pair (d.toNat % 1000000000) 1000000000).2 ≤
        d.toNat / 1000000000 * (roundF64Pair (d.toNat % 1000000000) 1000000000).2 :=
      Nat.mul_le_mul_right _ hsec
    omega
  have hs := roundF64Pair_ge_one
    (d.toNat / 1000000000 * (roundF64Pair (d.toNat % 1000000000) 1000000000).2 +
      (roundF64Pair (d.toNat % 1000000000) 1000000000).1)
    (roundF64Pair (d.toNat % 1000000000) 1000000000).2 hx hab
  have hdenpos := roundF64Pair_den_pos
    (d.toNat / 1000000000 * (roundF64Pair (d.toNat % 1000000000) 1000000000).2 +
      (roundF64Pair (d.toNat % 1000000000) 1000000000).1)
    (roundF64Pair (d.toNat % 1000000000) 1000000000).2
  unfold goDurationSeconds float64SecondsPair
  exact (Nat.one_le_div_iff hdenpos).mpr hs

theorem hmsComponents_spec (s : Nat) :
    (hmsComponents s).2.1 < 60 ∧ (hmsComponents s).2.2 < 60 ∧
    (hmsComponents s).1 * 3600 + (hmsComponents s).2.1 * 60 + (hmsComponents s).2.2 = s := by
  unfold hmsComponents
  split_ifs with h1 h2 <;> dsimp only <;> exact ⟨by omega, by omega, by omega⟩

theorem humanReadableDuration_eq_joinParts (d : Int) (hd : 1000000000 ≤ d) :
    humanReadableDuration d =
      joinParts (durationParts (hmsComponents (goDurationSeconds d)).1
        (hmsComponents (goDurationSeconds d)).2.1
        (hmsComponents (goDurationSeconds d)).2.2) := by
  unfold humanReadableDuration
  rw [if_neg (by omega)]

theorem humanReadableDuration_ne_empty (d : Int) (hd : 1000000000 ≤ d) :
    humanReadableDuration d ≠ "" := by
  rw [humanReadableDuration_eq_joinParts d hd]
  have hs : 1 ≤ goDurationSeconds d := goDurationSeconds_pos d hd
  obtain ⟨hm, hsec, hsum⟩ := hmsComponents_spec (goDurationSeconds d)
  unfold durationParts
  rcases Nat.eq_zero_or_pos (hmsComponents (goDurationSeconds d)).1 with h1 | h1
  · rcases Nat.eq_zero_or_pos (hmsComponents (goDurationSeconds d)).2.1 with h2 | h2
    · have h3 : 0 < (hmsComponents (goDurationSeconds d)).2.2 := by omega
      rw [if_neg (by omega), if_neg (by omega), if_pos h3]
      simp only [List.nil_append]
      exact joinParts_cons_ne_empty _ _ (str_append_ne_empty _ _ (by decide))
    · rw [if_neg (by omega), if_pos h2]
      simp only [List.nil_append, List.cons_append]
      exact joinParts_cons_ne_empty _ _ (str_append_ne_empty _ _ (by decide))
  · rw [if_pos h1]
    simp only [List.cons_append, List.nil_append]
    exact joinParts_cons_ne_empty _ _ (str_append_ne_empty _ _ (by decide))

/-! The claims. -/

/-- C1: for every duration strictly below one second `humanReadableDuration`
returns "less than a second"; 90 s gives "1 min 30 sec"; 3661 s gives
"1 h 1 min 1 sec"; and for every duration of at least one second the output
is the space-join of a list of parts each of which carries a strictly
positive component value, so zero-valued components are omitted. -/
theorem humanReadableDuration_C1 :
    (∀ d : Int, d < 1000000000 → humanReadableDuration d = "less than a second") ∧
    humanReadableDuration (90 * 1000000000) = "1 min 30 sec" ∧
    humanReadableDuration (3661 * 1000000000) = "1 h 1 min 1 sec" ∧
    (∀ d : Int, 1000000000 ≤ d → ∃ parts : List String,
      humanReadableDuration d = joinParts parts ∧
      ∀ p ∈ parts, ∃ k : Nat, 0 < k ∧
        (p = toString k ++ " h" ∨ p = toString k ++ " min" ∨ p = toString k ++ " sec")) := by
  refine ⟨?_, rfl, rfl, ?_⟩
  · intro d h
    unfold humanReadableDuration
    rw [if_pos h]
  · intro d hd
    exact ⟨_, humanReadableDuration_eq_joinParts d hd,
      fun p hp => durationParts_mem _ _ _ p hp⟩

/-- C1 instantiated: a sub-second duration and the 90 s duration. -/
theorem humanReadableDuration_C1_inst :
    humanReadableDuration 5 = "less than a second" ∧
    ∃ parts : List String,
      humanReadableDuration (90 * 1000000000) = joinParts parts ∧
      ∀ p ∈ parts, ∃ k : Nat, 0 < k ∧
        (p = toString k ++ " h" ∨ p = toString k ++ " min" ∨ p = toString k ++ " sec") :=
  ⟨humanReadableDuration_C1.1 5 (by decide),
   humanReadableDuration_C1.2.2.2 (90 * 1000000000) (by decide)⟩

/-- C10 counterexample: at 16777216999999999 ns (2^24 seconds plus 999999999
nanoseconds) the code's `int(duration.Seconds())` path computes 16777217
seconds — float64 round-to-nearest bumps the sum past the next integer — so
the components sum to 16777217 while the duration holds only 16777216 whole
seconds, refuting the claim's equation with the whole number of seconds. -/
theorem humanReadableDuration_C10_cex :
    goDurationSeconds 16777216999999999 = 16777217 ∧
    ((16777216999999999 : Int)).toNat / 1000000000 = 16777216 ∧
    ¬ ((hmsComponents (goDurationSeconds 16777216999999999)).1 * 3600 +
        (hmsComponents (goDurationSeconds 16777216999999999)).2.1 * 60 +
        (hmsComponents (goDurationSeconds 16777216999999999)).2.2 =
        ((16777216999999999 : Int)).toNat / 1000000000) := by
  refine ⟨by decide, by decide, ?_⟩
  decide

/-- C10 (amended): for every duration of at least one second the computed
components satisfy `minutes < 60` and `seconds < 60`, their weighted sum
reconstructs the seconds value the code computes — `int(duration.Seconds())`,
which by float64 rounding can exceed the duration's whole number of seconds
(see the counterexample) — and the rendered string is non-empty. -/
theorem humanReadableDuration_C10 :
    ∀ d : Int, 1000000000 ≤ d →
      (hmsComponents (goDurationSeconds d)).2.1 < 60 ∧
      (hmsComponents (goDurationSeconds d)).2.2 < 60 ∧
      (hmsComponents (goDurationSeconds d)).1 * 3600 +
        (hmsComponents (goDurationSeconds d)).2.1 * 60 +
        (hmsComponents (goDurationSeconds d)).2.2 = goDurationSeconds d ∧
      humanReadableDuration d ≠ "" := by
  intro d hd
  obtain ⟨hm, hs, hsum⟩ := hmsComponents_spec (goDurationSeconds d)
  exact ⟨hm, hs, hsum, humanReadableDuration_ne_empty d hd⟩

/-- C10 instantiated at 3661 seconds. -/
theorem humanReadableDuration_C10_inst :
    (hmsComponents (goDurationSeconds ((3661 : Int) * 1000000000))).2.1 < 60 ∧
    (hmsComponents (goDurationSeconds ((3661 : Int) * 1000000000))).2.2 < 60 ∧
    (hmsComponents (goDurationSeconds ((3661 : Int) * 1000000000))).1 * 3600 +
      (hmsComponents (goDurationSeconds ((3661 : Int) * 1000000000))).2.1 * 60 +
      (hmsComponents (goDurationSeconds ((3661 : Int) * 1000000000))).2.2 =
        goDurationSeconds ((3661 : Int) * 1000000000) ∧
    humanReadableDuration ((3661 : Int) * 1000000000) ≠ "" :=
  humanReadableDuration_C10 (3661 * 1000000000) (by decide)

/-- C2: `mapOutputSetting` never returns an error: the error component is
`none` for every input; inputs lowercasing to "json" or "yaml" map to the
JSON and YAML output types (case-insensitively, e.g. "JSON"); every other
input, e.g. "bogus", yields the none sentinel with a nil error. -/
theorem mapOutputSetting_C2 :
    (∀ s : String, (mapOutputSetting s).2 = none) ∧
    (∀ s : String, goToLower s = "json" → (mapOutputSetting s).1 = OutputType.JSON) ∧
    (∀ s : String, goToLower s = "yaml" → (mapOutputSetting s).1 = OutputType.YAML) ∧
    mapOutputSetting "JSON" = (OutputType.JSON, none) ∧
    (∀ s : String, goToLower s ≠ "json" → goToLower s ≠ "yaml" →
      mapOutputSetting s = (OutputType.NoneSentinel, none)) ∧
    mapOutputSetting "bogus" = (OutputType.NoneSentinel, none) := by
  refine ⟨?_, ?_, ?_, by decide, ?_, by decide⟩
  · intro s
    unfold mapOutputSetting
    split_ifs <;> rfl
  · intro s h
    unfold mapOutputSetting
    rw [if_pos h]
  · intro s h
    unfold mapOutputSetting
    rw [if_neg (by rw [h]; decide), if_pos h]
  · intro s h1 h2
    unfold mapOutputSetting
    rw [if_neg h1, if_neg h2]

/-- C2 instantiated: the case-insensitive "YAML" input and an arbitrary
unsupported input. -/
theorem mapOutputSetting_C2_inst :
    (mapOutputSetting "YAML").1 = OutputType.YAML ∧
    mapOutputSetting "whatever" = (OutputType.NoneSentinel, none) :=
  ⟨mapOutputSetting_C2.2.2.1 "YAML" (by decide),
   mapOutputSetting_C2.2.2.2.2.1 "whatever" (by decide) (by decide)⟩

/-- C3: `mapDeleteSetting` maps exactly "always", "never" and "on-success"
(case-sensitively) to the three cleanup settings without error, and every
other input is an error carrying the source's message. -/
theorem mapDeleteSetting_C3 :
    mapDeleteSetting "always" = .ok AppCleanupSetting.Always ∧
    mapDeleteSetting "never" = .ok AppCleanupSetting.Never ∧
    mapDeleteSetting "on-success" = .ok AppCleanupSetting.OnSuccess ∧
    ∀ s : String, s ≠ "always" → s ≠ "never" → s ≠ "on-success" →
      mapDeleteSetting s = .error ("unsupported delete setting: " ++ s) := by
  refine ⟨rfl, rfl, rfl, ?_⟩
  intro s h1 h2 h3
  unfold mapDeleteSetting
  rw [if_neg h1, if_neg h2, if_neg h3]

/-- C3 instantiated: the unsupported input "bogus" (note that the
capitalized "Always" is also unsupported: the switch is case-sensitive). -/
theorem mapDeleteSetting_C3_inst :
    mapDeleteSetting "bogus" = .error ("unsupported delete setting: " ++ "bogus") ∧
    mapDeleteSetting "Always" = .error ("unsupported delete setting: " ++ "Always") :=
  ⟨mapDeleteSetting_C3.2.2.2 "bogus" (by decide) (by decide) (by decide),
   mapDeleteSetting_C3.2.2.2 "Always" (by decide) (by decide) (by decide)⟩

/-! Case lemmas for `summaryPrintout`. -/

theorem summaryPrintout_short_eq (ji : String → Except String String)
    (cap : String) (r : PushReport) (ot : OutputType) :
    summaryPrintout ji cap r "short" ot =
      .ok ["Successfully pushed *" ++ cap ++ "* sample app in CadetBlue\x7b"
            ++ humanReadableDuration r.elapsedTime ++ "\x7d.\n"] := rfl

theorem summaryPrintout_oneline_eq (ji : String → Except String String)
    (cap : String) (r : PushReport) (ot : OutputType) :
    summaryPrintout ji cap r "oneline" ot =
      .ok ["Successfully pushed *" ++ cap ++ "* sample app in CadetBlue\x7b"
            ++ humanReadableDuration r.elapsedTime ++ "\x7d.\n"] := rfl

theorem summaryPrintout_other_eq (ji : String → Except String String)
    (cap : String) (r : PushReport) (ss : String) (ot : OutputType)
    (h1 : ss ≠ "short") (h2 : ss ≠ "oneline") (h3 : ss ≠ "full") :
    summaryPrintout ji cap r ss ot = .ok [] := by
  unfold summaryPrintout
  rw [if_neg (by simp [h1, h2]), if_neg h3]

theorem summaryPrintout_full_json_err (ji : String → Except String String)
    (cap : String) (r : PushReport) (e : String) (h : r.toJSON = .error e) :
    summaryPrintout ji cap r "full" OutputType.JSON = .error e := by
  unfold summaryPrintout
  rw [if_neg (by decide), if_pos rfl]
  simp only [h]

theorem summaryPrintout_full_json_indent_err (ji : String → Except String String)
    (cap : String) (r : PushReport) (o e : String)
    (h : r.toJSON = .ok o) (h2 : ji o = .error e) :
    summaryPrintout ji cap r "full" OutputType.JSON = .error e := by
  unfold summaryPrintout
  rw [if_neg (by decide), if_pos rfl]
  simp only [h, h2]

theorem summaryPrintout_full_json_ok (ji : String → Except String String)
    (cap : String) (r : PushReport) (o b : String)
    (h : r.toJSON = .ok o) (h2 : ji o = .ok b) :
    summaryPrintout ji cap r "full" OutputType.JSON = .ok [b ++ "\n"] := by
  unfold summaryPrintout
  rw [if_neg (by decide), if_pos rfl]
  simp only [h, h2]

theorem summaryPrintout_full_yaml_err (ji : String → Except String String)
    (cap : String) (r : PushReport) (e : String) (h : r.toYAML = .error e) :
    summaryPrintout ji cap r "full" OutputType.YAML = .error e := by
  unfold summaryPrintout
  rw [if_neg (by decide), if_pos rfl]
  simp only [h]

theorem summaryPrintout_full_yaml_ok (ji : String → Except String String)
    (cap : String) (r : PushReport) (o : String) (h : r.toYAML = .ok o) :
    summaryPrintout ji cap r "full" OutputType.YAML = .ok [o ++ "\n"] := by
  unfold summaryPrintout
  rw [if_neg (by decide), if_pos rfl]
  simp only [h]

theorem summaryPrintout_full_none_eq (ji : String → Except String String)
    (cap : String) (r : PushReport) :
    summaryPrintout ji cap r "full" OutputType.NoneSentinel =
      .ok (["Successfully pushed *" ++ cap ++ "* sample app in CadetBlue\x7b"
              ++ humanReadableDuration r.elapsedTime ++ "\x7d:\n",
            "     DimGray\x7b_stack:_\x7d DarkSeaGreen\x7b" ++ r.stack ++ "\x7d\n",
            " DimGray\x7b_buildpack:_\x7d DarkSeaGreen\x7b" ++ r.buildpack ++ "\x7d\n"]
        ++ (if r.hasTimeDetails then
              ["   DimGray\x7b_ramp-up:_\x7d SteelBlue\x7b"
                 ++ humanReadableDuration r.initTime ++ "\x7d\n",
               "  DimGray\x7b_creating:_\x7d SteelBlue\x7b"
                 ++ humanReadableDuration r.creatingTime ++ "\x7d\n",
               " DimGray\x7b_uploading:_\x7d SteelBlue\x7b"
                 ++ humanReadableDuration r.uploadingTime ++ "\x7d\n",
               "   DimGray\x7b_staging:_\x7d SteelBlue\x7b"
                 ++ humanReadableDuration r.stagingTime ++ "\x7d\n",
               "  DimGray\x7b_starting:_\x7d SteelBlue\x7b"
                 ++ humanReadableDuration r.startingTime ++ "\x7d\n"]
            else [])
        ++ ["\n"]) := rfl

/-- C8: for every summary setting outside short/oneline/full, among them
"quiet" and the empty string, `summaryPrintout` prints nothing and returns a
nil error, for every report and output type. -/
theorem summaryPrintout_C8 :
    ∀ (ji : String → Except String String) (cap : String) (r : PushReport)
      (ss : String) (ot : OutputType),
      ss ≠ "short" → ss ≠ "oneline" → ss ≠ "full" →
      summaryPrintout ji cap r ss ot = .ok [] :=
  fun ji cap r ss ot h1 h2 h3 => summaryPrintout_other_eq ji cap r ss ot h1 h2 h3

/-- C8 instantiated: the "quiet" level and the empty string. -/
theorem summaryPrintout_C8_inst :
    summaryPrintout (fun s => .ok s) "Golang" report0 "quiet" OutputType.JSON = .ok [] ∧
    summaryPrintout (fun s => .ok s) "Golang" report0 "" OutputType.YAML = .ok [] :=
  ⟨summaryPrintout_C8 (fun s => .ok s) "Golang" report0 "quiet" OutputType.JSON
      (by decide) (by decide) (by decide),
   summaryPrintout_C8 (fun s => .ok s) "Golang" report0 "" OutputType.YAML
      (by decide) (by decide) (by decide)⟩

/-- C6: `summaryPrintout` returns an error exactly when the summary setting is
"full", the output type is JSON or YAML, and the corresponding serialization
(for JSON: `ToJSON` itself or the re-indentation) fails; every other
combination returns a nil error. -/
theorem summaryPrintout_C6 :
    ∀ (ji : String → Except String String) (cap : String) (r : PushReport)
      (ss : String) (ot : OutputType),
      isErr (summaryPrintout ji cap r ss ot) = true ↔
        (ss = "full" ∧
          ((ot = OutputType.JSON ∧
             (isErr r.toJSON = true ∨ ∃ o, r.toJSON = .ok o ∧ isErr (ji o) = true)) ∨
           (ot = OutputType.YAML ∧ isErr r.toYAML = true))) := by
  intro ji cap r ss ot
  by_cases h1 : ss = "short"
  · subst h1
    rw [summaryPrintout_short_eq]
    simp [isErr]
  by_cases h2 : ss = "oneline"
  · subst h2
    rw [summaryPrintout_oneline_eq]
    simp [isErr]
  by_cases h3 : ss = "full"
  · subst h3
    cases ot with
    | JSON =>
      rcases hj : r.toJSON with e | o
      · rw [summaryPrintout_full_json_err ji cap r e hj]
        simp [isErr, hj]
      · rcases hji : ji o with e2 | b
        · rw [summaryPrintout_full_json_indent_err ji cap r o e2 hj hji]
          simp [isErr, hj, hji]
        · rw [summaryPrintout_full_json_ok ji cap r o b hj hji]
          simp [isErr, hj, hji]
    | YAML =>
      rcases hy : r.toYAML with e | o
      · rw [summaryPrintout_full_yaml_err ji cap r e hy]
        simp [isErr, hy]
      · rw [summaryPrintout_full_yaml_ok ji cap r o hy]
        simp [isErr, hy]
    | NoneSentinel =>
      rw [summaryPrintout_full_none_eq]
      simp [isErr]
  · rw [summaryPrintout_other_eq ji cap r ss ot h1 h2 h3]
    simp [isErr, h3]

/-- C6 instantiated: a failing YAML serialization at "full" errors; the same
report at "short" does not. -/
theorem summaryPrintout_C6_inst :
    isErr (summaryPrintout (fun s => .ok s) "Golang"
      { report0 with toYAML := .error "marshal failed" } "full" OutputType.YAML) = true ∧
    isErr (summaryPrintout (fun s => .ok s) "Golang"
      { report0 with toYAML := .error "marshal failed" } "short" OutputType.YAML) ≠ true :=
  ⟨(summaryPrintout_C6 (fun s => .ok s) "Golang"
      { report0 with toYAML := .error "marshal failed" } "full" OutputType.YAML).mpr
      ⟨rfl, Or.inr ⟨rfl, rfl⟩⟩,
   fun h => by
    have h2 := (summaryPrintout_C6 (fun s => .ok s) "Golang"
      { report0 with toYAML := .error "marshal failed" } "short" OutputType.YAML).mp h
    exact absurd h2.1 (by decide)⟩

/-- C7: the output type matters only at summary level "full": at "short" and
"oneline" every output type yields the same single success line containing
the human-readable elapsed time; at "full" the output type selects structured
JSON, structured YAML, or the multi-line human report, whose per-phase timing
lines appear exactly when the report has time details (9 printed strings
versus 4). -/
theorem summaryPrintout_C7 :
    ∀ (ji : String → Except String String) (cap : String) (r : PushReport),
      (∀ ot ot' : OutputType,
        summaryPrintout ji cap r "short" ot = summaryPrintout ji cap r "short" ot' ∧
        summaryPrintout ji cap r "oneline" ot = summaryPrintout ji cap r "oneline" ot' ∧
        summaryPrintout ji cap r "short" ot =
          .ok ["Successfully pushed *" ++ cap ++ "* sample app in CadetBlue\x7b"
                ++ humanReadableDuration r.elapsedTime ++ "\x7d.\n"] ∧
        summaryPrintout ji cap r "oneline" ot =
          .ok ["Successfully pushed *" ++ cap ++ "* sample app in CadetBlue\x7b"
                ++ humanReadableDuration r.elapsedTime ++ "\x7d.\n"]) ∧
      (∀ o b : String, r.toJSON = .ok o → ji o = .ok b →
        summaryPrintout ji cap r "full" OutputType.JSON = .ok [b ++ "\n"]) ∧
      (∀ o : String, r.toYAML = .ok o →
        summaryPrintout ji cap r "full" OutputType.YAML = .ok [o ++ "\n"]) ∧
      (∃ lines : List String,
        summaryPrintout ji cap r "full" OutputType.NoneSentinel = .ok lines ∧
        lines.length = (if r.hasTimeDetails then 9 else 4)) := by
  intro ji cap r
  refine ⟨?_, ?_, ?_, ?_⟩
  · intro ot ot'
    exact ⟨rfl, rfl, summaryPrintout_short_eq ji cap r ot,
      summaryPrintout_oneline_eq ji cap r ot⟩
  · intro o b h h2
    exact summaryPrintout_full_json_ok ji cap r o b h h2
  · intro o h
    exact summaryPrintout_full_yaml_ok ji cap r o h
  · refine ⟨_, summaryPrintout_full_none_eq ji cap r, ?_⟩
    cases hr : r.hasTimeDetails <;> simp [hr]

/-- C7 instantiated: the structured JSON rendering at "full" and the two
human-report lengths. -/
theorem summaryPrintout_C7_inst :
    summaryPrintout (fun s => .ok s) "Golang" report0 "full" OutputType.JSON =
      .ok ["null" ++ "\n"] ∧
    (∃ lines : List String,
      summaryPrintout (fun s => .ok s) "Golang" report0 "full" OutputType.NoneSentinel =
        .ok lines ∧ lines.length = (if report0.hasTimeDetails then 9 else 4)) :=
  ⟨(summaryPrintout_C7 (fun s => .ok s) "Golang" report0).2.1 "null" "null" rfl rfl,
   (summaryPrintout_C7 (fun s => .ok s) "Golang" report0).2.2.2⟩

/-! Lemmas for the push orchestration. -/

theorem mapOutputSetting_snd_eq_none (s : String) : (mapOutputSetting s).2 = none := by
  unfold mapOutputSetting
  split_ifs <;> rfl

theorem mapOutputSetting_eta (s : String) :
    mapOutputSetting s = ((mapOutputSetting s).1, none) := by
  have ho := mapOutputSetting_snd_eq_none s
  rcases hmo : mapOutputSetting s with ⟨a, b⟩
  rw [hmo] at ho
  dsimp only at ho ⊢
  rw [ho]

/-- An unsupported delete setting stops `runSampleAppPush` at its first
step. -/
theorem runSampleAppPush_deleteErr (env : PushEnv) (app : sampleApp) (e : String)
    (he : mapDeleteSetting env.deleteSetting = .error e) :
    runSampleAppPush env app = (.error e, [PushStep.mapDelete]) := by
  unfold runSampleAppPush
  simp only [he]

/-- A failing asset function stops `runSampleAppPush` before the push. -/
theorem runSampleAppPush_assetErr (env : PushEnv) (app : sampleApp)
    (c : AppCleanupSetting) (e : String)
    (hc : mapDeleteSetting env.deleteSetting = .ok c)
    (ha : app.assetFunc () = .error e) :
    runSampleAppPush env app =
      (.error e, [PushStep.mapDelete, PushStep.mapOutput,
        PushStep.genName (generatedAppName env app), PushStep.getAsset]) := by
  unfold runSampleAppPush
  rw [mapOutputSetting_eta env.outputSetting]
  simp only [hc, ha]

/-- A failing external push stops `runSampleAppPush` before rendering. -/
theorem runSampleAppPush_pushErr (env : PushEnv) (app : sampleApp)
    (c : AppCleanupSetting) (d : Directory) (e : String)
    (hc : mapDeleteSetting env.deleteSetting = .ok c)
    (ha : app.assetFunc () = .ok d)
    (hp : env.pushApp app.caption (generatedAppName env app) d c = .error e) :
    runSampleAppPush env app =
      (.error e, [PushStep.mapDelete, PushStep.mapOutput,
        PushStep.genName (generatedAppName env app), PushStep.getAsset,
        PushStep.doPush]) := by
  unfold runSampleAppPush
  rw [mapOutputSetting_eta env.outputSetting]
  simp only [hc, ha, hp]

/-- When every step succeeds, `runSampleAppPush` runs all six steps and
returns the rendering's result. -/
theorem runSampleAppPush_success (env : PushEnv) (app : sampleApp)
    (c : AppCleanupSetting) (d : Directory) (r : PushReport)
    (hc : mapDeleteSetting env.deleteSetting = .ok c)
    (ha : app.assetFunc () = .ok d)
    (hp : env.pushApp app.caption (generatedAppName env app) d c = .ok r) :
    runSampleAppPush env app =
      (summaryPrintout env.jsonIndent app.caption r env.summarySetting
         (mapOutputSetting env.outputSetting).1,
       [PushStep.mapDelete, PushStep.mapOutput,
        PushStep.genName (generatedAppName env app), PushStep.getAsset,
        PushStep.doPush, PushStep.render]) := by
  unfold runSampleAppPush
  rw [mapOutputSetting_eta env.outputSetting]
  simp only [hc, ha, hp]

/-- C4: `runSampleAppPush` executes map-delete, map-output, name generation,
asset retrieval, the external push, and report rendering in that order: its
trace is always a prefix of that sequence; an unsupported delete setting
stops it with only the first step run (so neither the asset function nor the
push routine is invoked); an asset error stops it before the push; a push
error stops it before rendering; and when every step succeeds the rendering's
result is returned after the full sequence. -/
theorem runSampleAppPush_C4 :
    ∀ (env : PushEnv) (app : sampleApp),
      (∃ t : List PushStep,
        [PushStep.mapDelete, PushStep.mapOutput,
         PushStep.genName (generatedAppName env app), PushStep.getAsset,
         PushStep.doPush, PushStep.render] = (runSampleAppPush env app).2 ++ t) ∧
      (∀ e : String, mapDeleteSetting env.deleteSetting = .error e →
        runSampleAppPush env app = (.error e, [PushStep.mapDelete]) ∧
        PushStep.getAsset ∉ (runSampleAppPush env app).2 ∧
        PushStep.doPush ∉ (runSampleAppPush env app).2 ∧
        PushStep.render ∉ (runSampleAppPush env app).2) ∧
      (∀ (c : AppCleanupSetting) (e : String),
        mapDeleteSetting env.deleteSetting = .ok c → app.assetFunc () = .error e →
        runSampleAppPush env app =
          (.error e, [PushStep.mapDelete, PushStep.mapOutput,
            PushStep.genName (generatedAppName env app), PushStep.getAsset])) ∧
      (∀ (c : AppCleanupSetting) (d : Directory) (e : String),
        mapDeleteSetting env.deleteSetting = .ok c → app.assetFunc () = .ok d →
        env.pushApp app.caption (generatedAppName env app) d c = .error e →
        runSampleAppPush env app =
          (.error e, [PushStep.mapDelete, PushStep.mapOutput,
            PushStep.genName (generatedAppName env app), PushStep.getAsset,
            PushStep.doPush])) ∧
      (∀ (c : AppCleanupSetting) (d : Directory) (r : PushReport),
        mapDeleteSetting env.deleteSetting = .ok c → app.assetFunc () = .ok d →
        env.pushApp app.caption (generatedAppName env app) d c = .ok r →
        runSampleAppPush env app =
          (summaryPrintout env.jsonIndent app.caption r env.summarySetting
             (mapOutputSetting env.outputSetting).1,
           [PushStep.mapDelete, PushStep.mapOutput,
            PushStep.genName (generatedAppName env app), PushStep.getAsset,
            PushStep.doPush, PushStep.render])) := by
  intro env app
  refine ⟨?_, ?_, ?_, ?_, ?_⟩
  · rcases hd : mapDeleteSetting env.deleteSetting with e | c
    · rw [runSampleAppPush_deleteErr env app e hd]
      exact ⟨[PushStep.mapOutput, PushStep.genName (generatedAppName env app),
        PushStep.getAsset, PushStep.doPush, PushStep.render], rfl⟩
    · rcases ha : app.assetFunc () with e | d
      · rw [runSampleAppPush_assetErr env app c e hd ha]
        exact ⟨[PushStep.doPush, PushStep.render], rfl⟩
      · rcases hp : env.pushApp app.caption (generatedAppName env app) d c with e | r
        · rw [runSampleAppPush_pushErr env app c d e hd ha hp]
          exact ⟨[PushStep.render], rfl⟩
        · rw [runSampleAppPush_success env app c d r hd ha hp]
          exact ⟨[], by simp⟩
  · intro e he
    rw [runSampleAppPush_deleteErr env app e he]
    exact ⟨rfl, by simp, by simp, by simp⟩
  · intro c e hc he
    exact runSampleAppPush_assetErr env app c e hc he
  · intro c d e hc ha hp
    exact runSampleAppPush_pushErr env app c d e hc ha hp
  · intro c d r hc ha hp
    exact runSampleAppPush_success env app c d r hc ha hp

/-- C4 instantiated: with the unsupported delete setting "bogus", the run
stops after the first step and the asset step is never reached. -/
theorem runSampleAppPush_C4_inst :
    runSampleAppPush envBadDelete appOk =
      (.error ("unsupported delete setting: " ++ "bogus"), [PushStep.mapDelete]) ∧
    PushStep.getAsset ∉ (runSampleAppPush envBadDelete appOk).2 :=
  ⟨((runSampleAppPush_C4 envBadDelete appOk).2.1
      ("unsupported delete setting: " ++ "bogus") rfl).1,
   ((runSampleAppPush_C4 envBadDelete appOk).2.1
      ("unsupported delete setting: " ++ "bogus") rfl).2.1⟩

/-- If a string extends "gonut-" then so does its concatenation with any
suffix. -/
theorem gonut_pfx_extend (a rest suffix : String) (h : a = "gonut-" ++ rest) :
    ∃ t : String, a ++ suffix = "gonut-" ++ t :=
  ⟨rest ++ suffix, by rw [h, String.append_assoc]⟩

/-- C9: every entry of `sampleApps` has an app-name prefix that starts with
`GonutAppPrefix ++ "-"`, i.e. "gonut-", and ends with "-app-"; hence the app
name `runSampleAppPush` generates (prefix plus random suffix) always starts
with "gonut-".  Prefix and suffix are expressed by explicit decompositions. -/
theorem sampleApps_C9 :
    ∀ (P : AssetProvider) (app : sampleApp), app ∈ sampleApps P →
      (∃ t : String, app.appNamePfx = (GonutAppPfx ++ "-") ++ t) ∧
      (∃ t : String, app.appNamePfx = t ++ "-app-") ∧
      (∀ env : PushEnv, ∃ t : String, generatedAppName env app = "gonut-" ++ t) := by
  intro P app hmem
  simp only [sampleApps, List.mem_cons, List.not_mem_nil, or_false] at hmem
  rcases hmem with rfl | rfl | rfl | rfl | rfl | rfl | rfl
  · exact ⟨⟨"golang-app-", by dsimp only; decide⟩, ⟨"gonut-golang", by dsimp only; decide⟩,
      fun env => gonut_pfx_extend _ "golang-app-" env.randomSuffix (by dsimp only; decide)⟩
  · exact ⟨⟨"python-app-", by dsimp only; decide⟩, ⟨"gonut-python", by dsimp only; decide⟩,
      fun env => gonut_pfx_extend _ "python-app-" env.randomSuffix (by dsimp only; decide)⟩
  · exact ⟨⟨"php-app-", by dsimp only; decide⟩, ⟨"gonut-php", by dsimp only; decide⟩,
      fun env => gonut_pfx_extend _ "php-app-" env.randomSuffix (by dsimp only; decide)⟩
  · exact ⟨⟨"staticfile-app-", by dsimp only; decide⟩,
      ⟨"gonut-staticfile", by dsimp only; decide⟩,
      fun env => gonut_pfx_extend _ "staticfile-app-" env.randomSuffix (by dsimp only; decide)⟩
  · exact ⟨⟨"swift-app-", by dsimp only; decide⟩, ⟨"gonut-swift", by dsimp only; decide⟩,
      fun env => gonut_pfx_extend _ "swift-app-" env.randomSuffix (by dsimp only; decide)⟩
  · exact ⟨⟨"nodejs-app-", by dsimp only; decide⟩, ⟨"gonut-nodejs", by dsimp only; decide⟩,
      fun env => gonut_pfx_extend _ "nodejs-app-" env.randomSuffix (by dsimp only; decide)⟩
  · exact ⟨⟨"ruby-sinatra-app-", by dsimp only; decide⟩,
      ⟨"gonut-ruby-sinatra", by dsimp only; decide⟩,
      fun env => gonut_pfx_extend _ "ruby-sinatra-app-" env.randomSuffix (by dsimp only; decide)⟩

/-- C9 instantiated at the Golang entry of the table. -/
theorem sampleApps_C9_inst :
    ∃ t : String,
      generatedAppName envOk
        { caption := "Golang", command := "golang", aliases := ["go"],
          appNamePfx := GonutAppPfx ++ "-golang-app-",
          assetFunc := provider0.GoSampleApp } = "gonut-" ++ t :=
  (sampleApps_C9 provider0
    { caption := "Golang", command := "golang", aliases := ["go"],
      appNamePfx := GonutAppPfx ++ "-golang-app-",
      assetFunc := provider0.GoSampleApp }
    (by simp [sampleApps])).2.2 envOk

/-! Lemmas for the "push all" loop. -/

theorem pushAllCmd_all_ok (env : PushEnv) :
    ∀ apps : List sampleApp,
      (∀ b ∈ apps, isErr (runSampleAppPush env b).1 = false) →
      pushAllCmd env apps = (none, apps.map sampleApp.command)
  | [], _ => rfl
  | app :: rest, h => by
    have hh := h app (List.mem_cons_self app rest)
    have ih := pushAllCmd_all_ok env rest (fun b hb => h b (List.mem_cons_of_mem app hb))
    rcases ha : (runSampleAppPush env app).1 with e | v
    · rw [ha] at hh
      simp [isErr] at hh
    · simp only [pushAllCmd, ha, ih]
      simp

theorem pushAllCmd_first_err (env : PushEnv) :
    ∀ (pre : List sampleApp) (bad : sampleApp) (post : List sampleApp) (e : String),
      (∀ b ∈ pre, isErr (runSampleAppPush env b).1 = false) →
      (runSampleAppPush env bad).1 = .error e →
      pushAllCmd env (pre ++ bad :: post) =
        (some e, pre.map sampleApp.command ++ [bad.command])
  | [], bad, post, e, _, hbad => by
    rw [List.nil_append]
    simp only [pushAllCmd, hbad]
    simp
  | app :: pre, bad, post, e, h, hbad => by
    have hh := h app (List.mem_cons_self app pre)
    have ih := pushAllCmd_first_err env pre bad post e
      (fun b hb => h b (List.mem_cons_of_mem app hb)) hbad
    rw [List.cons_append]
    rcases ha : (runSampleAppPush env app).1 with e2 | v
    · rw [ha] at hh
      simp [isErr] at hh
    · simp only [pushAllCmd, ha, ih]
      simp

/-- C5: the "push all" command walks the sample-app table in order: when
every push succeeds it attempts exactly the seven apps in table order, and
whenever the table splits as `pre ++ bad :: post` with every app of `pre`
succeeding and `bad` failing, the run stops with `bad`'s error after
attempting exactly `pre` and `bad` — nothing in `post` is ever pushed. -/
theorem pushAllCmd_C5 :
    ∀ (env : PushEnv) (P : AssetProvider),
      ((∀ b ∈ sampleApps P, isErr (runSampleAppPush env b).1 = false) →
        pushAllCmd env (sampleApps P) =
          (none, ["golang", "python", "php", "staticfile", "swift", "nodejs", "ruby"])) ∧
      (∀ (pre : List sampleApp) (bad : sampleApp) (post : List sampleApp),
        sampleApps P = pre ++ bad :: post →
        (∀ b ∈ pre, isErr (runSampleAppPush env b).1 = false) →
        ∀ e : String, (runSampleAppPush env bad).1 = .error e →
        pushAllCmd env (sampleApps P) =
          (some e, pre.map sampleApp.command ++ [bad.command])) := by
  intro env P
  constructor
  · intro h
    rw [pushAllCmd_all_ok env (sampleApps P) h]
    rfl
  · intro pre bad post hsplit h e hbad
    rw [hsplit]
    exact pushAllCmd_first_err env pre bad post e h hbad

/-- C5 instantiated: with a healthy environment all seven apps are attempted
in table order; with the unsupported delete setting the run stops at the very
first app. -/
theorem pushAllCmd_C5_inst :
    pushAllCmd envOk (sampleApps provider0) =
      (none, ["golang", "python", "php", "staticfile", "swift", "nodejs", "ruby"]) ∧
    pushAllCmd envBadDelete (sampleApps provider0) =
      (some ("unsupported delete setting: " ++ "bogus"), ["golang"]) :=
  ⟨(pushAllCmd_C5 envOk provider0).1 (by decide),
   (pushAllCmd_C5 envBadDelete provider0).2 [] golangApp0
     ((sampleApps provider0).tail) rfl (by simp)
     ("unsupported delete setting: " ++ "bogus") rfl⟩

end Gonut
